import Mathlib

/-!
The header `inject.h` of seccomp-nurse.

A verification development for the injection header of seccomp-nurse.  The
header consists of

* the `ElfW` family of function-like macros, which build the name of the ELF
  structure type of the native word size by token pasting,
* the object-like macros `SHMEM_NAME`, `SHMEM_MODE` and `SHMEM_SIZE`,
* the type `main_t` and the global `realmain`.

The macros are embedded as functions on lists of preprocessing tokens; the
semantics they rely on (argument pre-expansion, the `##` operator, rescanning,
integer literals) is given by the small generic definitions below.  The word
size macro `__WORDSIZE` is not defined by the header itself and is a parameter.
-/

namespace Inject

/-! ## Preprocessing tokens -/

/-- Preprocessing tokens that occur in the header and in its arguments. -/
inductive PPToken where
  | identifier (spelling : String)
  | ppNumber (spelling : String)
  | stringLiteral (contents : String)
  deriving DecidableEq, Repr

/-- Characters that may start an identifier. -/
def isIdentStart (c : Char) : Bool := c.isAlpha || c == '_'

/-- Characters that may continue an identifier. -/
def isIdentChar (c : Char) : Bool := c.isAlphanum || c == '_'

/-- Spelling of an identifier: a nondigit followed by nondigits and digits. -/
def isIdentifier (s : String) : Bool :=
  match s.data with
  | [] => false
  | c :: cs => isIdentStart c && cs.all isIdentChar

/-- Spelling of a preprocessing number: a digit followed by digits, nondigits
and periods. -/
def isPPNumber (s : String) : Bool :=
  match s.data with
  | [] => false
  | c :: cs => c.isDigit && cs.all (fun d => isIdentChar d || d == '.')

/-- The source spelling of a token. -/
def PPToken.spelling : PPToken → String
  | .identifier s => s
  | .ppNumber s => s
  | .stringLiteral s => "\"" ++ s ++ "\""

/-- Reads a spelling back as one preprocessing token, when it is one. -/
def classify (s : String) : Option PPToken :=
  if isIdentifier s then some (.identifier s)
  else if isPPNumber s then some (.ppNumber s)
  else none

/-- The `##` operator on two tokens: the spellings are concatenated and the
result must again be a single preprocessing token. -/
def paste (a b : PPToken) : Option PPToken :=
  classify (a.spelling ++ b.spelling)

/-- The `##` operator between two substituted operands.  An empty operand is a
placemarker; otherwise the last token on the left is pasted to the first token
on the right. -/
def pasteSeq (l r : List PPToken) : Option (List PPToken) :=
  match l.getLast?, r with
  | none, _ => some r
  | some _, [] => some l
  | some a, b :: r' => (paste a b).map (fun t => l.dropLast ++ t :: r')

/-! ## The object-like macros -/

/-- The include guard, `#define __INJECT_H`. -/
def __INJECT_H : List PPToken := []

/-- The width macro, `#define __ELF_NATIVE_CLASS __WORDSIZE`. -/
def __ELF_NATIVE_CLASS : List PPToken := [.identifier "__WORDSIZE"]

/-- The channel name, `#define SHMEM_NAME "/seccompnurse"`. -/
def SHMEM_NAME : List PPToken := [.stringLiteral "/seccompnurse"]

/-- The channel mode, `#define SHMEM_MODE 277`. -/
def SHMEM_MODE : List PPToken := [.ppNumber "277"]

/-- The channel size, `#define SHMEM_SIZE 0x10`. -/
def SHMEM_SIZE : List PPToken := [.ppNumber "0x10"]

/-- The word size macro of the C library, `#define __WORDSIZE w`, with the
width written as a decimal literal. -/
def __WORDSIZE (w : Nat) : List PPToken := [.ppNumber (Nat.repr w)]

/-- The object-like macros in scope when the header is used with `__WORDSIZE`
defined as `w`. -/
def objectMacros (w : Nat) : List (String × List PPToken) :=
  [ ("__INJECT_H", __INJECT_H),
    ("__ELF_NATIVE_CLASS", __ELF_NATIVE_CLASS),
    ("SHMEM_NAME", SHMEM_NAME),
    ("SHMEM_MODE", SHMEM_MODE),
    ("SHMEM_SIZE", SHMEM_SIZE),
    ("__WORDSIZE", __WORDSIZE w) ]

/-- Names of the object-like macros in scope; they do not depend on the word
size. -/
def objectMacroNames : List String := (objectMacros 0).map Prod.fst

/-- Macro replacement of a token sequence by the object-like macros `defs`.
The replacement of a macro is rescanned with the macro's own name disabled.
The first argument bounds the number of steps. -/
def expand (defs : List (String × List PPToken)) :
    Nat → List String → List PPToken → Option (List PPToken)
  | 0, _, _ => none
  | _ + 1, _, [] => some []
  | fuel + 1, disabled, .identifier n :: rest =>
    if n ∈ disabled then
      (expand defs fuel disabled rest).map (fun r => .identifier n :: r)
    else
      match defs.lookup n with
      | some body =>
        (expand defs fuel (n :: disabled) body).bind fun b =>
          (expand defs fuel disabled rest).map fun r => b ++ r
      | none => (expand defs fuel disabled rest).map (fun r => .identifier n :: r)
  | fuel + 1, disabled, tok :: rest =>
    (expand defs fuel disabled rest).map (fun r => tok :: r)

/-- Complete macro replacement of a token sequence, as done for a macro
argument before substitution and for the result of a replacement. -/
def fullyExpand (w : Nat) (toks : List PPToken) : Option (List PPToken) :=
  expand (objectMacros w) (toks.length + 4) [] toks

/-! ## The `ElfW` macros -/

/-- The macro `#define _ElfW_1(e,w,t)	e##w##t`.

All three parameters are operands of `##`, so the arguments are substituted
without macro replacement; the pasted result is rescanned. -/
def _ElfW_1 (wordsize : Nat) (e w t : List PPToken) : Option (List PPToken) :=
  (pasteSeq e w).bind fun ew =>
    (pasteSeq ew t).bind fun ewt =>
      fullyExpand wordsize ewt

/-- The macro `#define _ElfW(e,w,t)	_ElfW_1 (e, w, _##t)`.

The parameters `e` and `w` are not operands of `##`: their arguments are
completely macro-replaced before substitution.  The parameter `t` is an
operand of `##` and is substituted as written. -/
def _ElfW (wordsize : Nat) (e w t : List PPToken) : Option (List PPToken) :=
  (fullyExpand wordsize e).bind fun e' =>
    (fullyExpand wordsize w).bind fun w' =>
      (pasteSeq [.identifier "_"] t).bind fun t' =>
        _ElfW_1 wordsize e' w' t'

/-- The macro `#define ElfW(type)	_ElfW (Elf, __ELF_NATIVE_CLASS, type)`.

The argument is completely macro-replaced before substitution. -/
def ElfW (wordsize : Nat) (type : List PPToken) : Option (List PPToken) :=
  (fullyExpand wordsize type).bind fun type' =>
    _ElfW wordsize [.identifier "Elf"] [.identifier "__ELF_NATIVE_CLASS"] type'

/-- The digits that follow the family prefix `Elf` in a resolved type name:
the width the name was built for. -/
def widthComponent (s : String) : Option (List Char) :=
  match s.data with
  | 'E' :: 'l' :: 'f' :: rest => some (rest.takeWhile Char.isDigit)
  | _ => none

/-! ## Integer constants -/

/-- Value of one digit of an integer constant. -/
def digitValue (c : Char) : Option Nat :=
  if c.isDigit then some (c.toNat - '0'.toNat)
  else if 'a'.toNat ≤ c.toNat ∧ c.toNat ≤ 'f'.toNat then some (c.toNat - 'a'.toNat + 10)
  else if 'A'.toNat ≤ c.toNat ∧ c.toNat ≤ 'F'.toNat then some (c.toNat - 'A'.toNat + 10)
  else none

/-- Reads a digit sequence in the given base, most significant digit first. -/
def readDigits (base : Nat) : List Char → Nat → Option Nat
  | [], acc => some acc
  | c :: cs, acc =>
    match digitValue c with
    | some d => if d < base then readDigits base cs (acc * base + d) else none
    | none => none

/-- Value of an unsuffixed C integer constant: the prefix `0x` or `0X` selects
base 16, a leading `0` base 8, and any other leading digit base 10. -/
def integerConstant (s : String) : Option Nat :=
  match s.data with
  | '0' :: 'x' :: d :: ds => readDigits 16 (d :: ds) 0
  | '0' :: 'X' :: d :: ds => readDigits 16 (d :: ds) 0
  | '0' :: ds => readDigits 8 ds 0
  | d :: ds => readDigits 10 (d :: ds) 0
  | [] => none

/-- Value of a macro whose replacement is a single integer constant. -/
def constantValue (body : List PPToken) : Option Nat :=
  match body with
  | [.ppNumber s] => integerConstant s
  | _ => none

/-- Contents of a macro whose replacement is a single string literal. -/
def stringValue (body : List PPToken) : Option String :=
  match body with
  | [.stringLiteral s] => some s
  | _ => none

/-- The size of the shared memory region in bytes, the value of `SHMEM_SIZE`. -/
def shmemSize : Nat := (constantValue SHMEM_SIZE).getD 0

/-- The mode of the shared memory region, the value of `SHMEM_MODE`. -/
def shmemMode : Nat := (constantValue SHMEM_MODE).getD 0

/-! ## File permission bits -/

/-- The permission bits of a file mode, `S_IRUSR` to `S_IXOTH`. -/
inductive PermBit where
  | ownerRead | ownerWrite | ownerExec
  | groupRead | groupWrite | groupExec
  | otherRead | otherWrite | otherExec
  deriving DecidableEq, Repr

/-- The mask of a permission bit. -/
def PermBit.mask : PermBit → Nat
  | .ownerRead => 0o400
  | .ownerWrite => 0o200
  | .ownerExec => 0o100
  | .groupRead => 0o040
  | .groupWrite => 0o020
  | .groupExec => 0o010
  | .otherRead => 0o004
  | .otherWrite => 0o002
  | .otherExec => 0o001

/-- Whether a permission bit is set in a mode. -/
def hasPerm (mode : Nat) (b : PermBit) : Bool := mode &&& b.mask != 0

/-- All nine permission bits. -/
def allPermBits : List PermBit :=
  [.ownerRead, .ownerWrite, .ownerExec, .groupRead, .groupWrite, .groupExec,
   .otherRead, .otherWrite, .otherExec]

/-- The permission bits set in a mode. -/
def permsOf (mode : Nat) : List PermBit := allPermBits.filter (hasPerm mode)

/-! ## Types and declarations -/

/-- The C types that occur in the header. -/
inductive CType where
  | int
  | char
  | pointer (target : CType)
  | function (result : CType) (params : List CType)
  | typedefName (name : String)

/-- The type `typedef int (*main_t)(int, char **, char **);`. -/
def main_t : CType :=
  .pointer (.function .int [.int, .pointer (.pointer .char), .pointer (.pointer .char)])

/-- The typedef names declared by the header. -/
def typedefs : List (String × CType) := [("main_t", main_t)]

/-- Replaces a typedef name by the type it names. -/
def resolveType : CType → Option CType
  | .typedefName n => typedefs.lookup n
  | t => some t

/-- Values of scalar objects.  The pointer with address `0` is the null
pointer. -/
inductive Value where
  | int (n : Int)
  | pointer (address : Nat)
  deriving DecidableEq, Repr

/-- The null pointer. -/
def Value.null : Value := .pointer 0

/-- A declaration of an object at file scope. -/
structure Declaration where
  name : String
  type : CType
  initializer : Option Value

/-- The global `main_t realmain;`, declared without an initializer. -/
def realmain : Declaration :=
  { name := "realmain", type := .typedefName "main_t", initializer := none }

/-- The zero of a scalar type: `0` for arithmetic types, the null pointer for
pointer types. -/
def zeroValue : CType → Option Value
  | .int => some (.int 0)
  | .char => some (.int 0)
  | .pointer _ => some Value.null
  | .function _ _ => none
  | .typedefName _ => none

/-- The value of an object with static storage duration at program startup:
its initializer, or the zero of its type when it has none. -/
def initialValue (d : Declaration) : Option Value :=
  match d.initializer with
  | some v => some v
  | none => (resolveType d.type).bind zeroValue

/-- The size in bytes of an object of a type, for a word size of `w` bits. -/
def sizeofType (w : Nat) (t : CType) : Option Nat :=
  match resolveType t with
  | some .int => some 4
  | some .char => some 1
  | some (.pointer _) => some (w / 8)
  | _ => none

/-- The size in bytes of the value kept in `realmain`. -/
def pointerSize (w : Nat) : Nat := (sizeofType w realmain.type).getD 0

/-! ## The handoff protocol -/

/-- Modelled from the spec: the errors of the handoff channel and of the
entry-point slot (§4.2, §4.3); the header declares no error type. -/
inductive InjectError where
  | ChannelTooSmall
  | ChannelMismatch
  | AlreadyInjected
  | SlotCorrupt
  | RedirectFailed
  deriving DecidableEq, Repr

/-- Modelled from the spec: the shared region of the handoff channel (§3), a
sequence of bytes; the header only fixes its name, mode and size. -/
structure HandoffChannel where
  region : List Nat
  deriving DecidableEq, Repr

/-- Modelled from the spec: creation of the channel (§4.2 `create_or_open`),
a region of `SHMEM_SIZE` bytes. -/
def HandoffChannel.create : HandoffChannel := ⟨List.replicate shmemSize 0⟩

/-- The `n` low bytes of a value, least significant first. -/
def bytesOf : Nat → Nat → List Nat
  | 0, _ => []
  | n + 1, v => v % 256 :: bytesOf n (v / 256)

/-- Modelled from the spec: `write_value` (§4.2) writes the pointer-sized
payload at the start of the region and fails with `ChannelTooSmall` when the
payload does not fit; the function is not part of the header. -/
def write_value (w : Nat) (ch : HandoffChannel) (value : Nat) :
    Except InjectError HandoffChannel :=
  if pointerSize w ≤ ch.region.length then
    .ok ⟨bytesOf (pointerSize w) value ++ ch.region.drop (pointerSize w)⟩
  else
    .error .ChannelTooSmall

/-- Modelled from the spec: the states of the entry-point hijack (§4.3); the
header only declares the slot. -/
inductive HijackState where
  | Uninjected | Captured | Redirected | Running | Resumed | Exited
  deriving DecidableEq, Repr

/-- Modelled from the spec: a target process as seen by the injector (§4.3),
its hijack state together with the contents of `realmain`. -/
structure Target where
  state : HijackState
  slot : Value
  deriving DecidableEq, Repr

/-- Modelled from the spec: the target at program startup, before any hijack
write (§3): the slot holds the startup value of `realmain`. -/
def Target.initial : Target :=
  { state := .Uninjected, slot := (initialValue realmain).getD Value.null }

/-- Modelled from the spec: capture of the original entry point (§4.3, §8).
From `Uninjected` the address is saved into the slot; a target that was
captured before is refused with `AlreadyInjected` and is left as it is.  The
function is not part of the header. -/
def capture (entry : Nat) (t : Target) : Target × Except InjectError Unit :=
  match t.state with
  | .Uninjected => ({ state := .Captured, slot := .pointer entry }, .ok ())
  | _ => (t, .error .AlreadyInjected)

/-- Modelled from the spec: redirection of the effective entry point to the
trampoline (§4.3), valid once the original entry point is captured.  The
function is not part of the header. -/
def redirect (t : Target) : Target × Except InjectError Unit :=
  match t.state with
  | .Captured => ({ t with state := .Redirected }, .ok ())
  | _ => (t, .error .RedirectFailed)

/-! ## Lemmas on spellings -/

theorem isDigit_digitChar (k : Nat) (h : k < 10) : (Nat.digitChar k).isDigit = true := by
  interval_cases k <;> decide

theorem isDigit_toDigitsCore (fuel : Nat) : ∀ (n : Nat) (ds : List Char),
    (∀ c ∈ ds, c.isDigit = true) → ∀ c ∈ Nat.toDigitsCore 10 fuel n ds, c.isDigit = true := by
  induction fuel with
  | zero => intro n ds h c hc; simpa [Nat.toDigitsCore] using h c (by simpa [Nat.toDigitsCore] using hc)
  | succ fuel ih =>
    intro n ds h c hc
    have hd : (Nat.digitChar (n % 10)).isDigit = true :=
      isDigit_digitChar _ (Nat.mod_lt _ (by decide))
    have hds : ∀ c ∈ Nat.digitChar (n % 10) :: ds, c.isDigit = true := by
      intro c hc
      rcases List.mem_cons.mp hc with rfl | hc
      · exact hd
      · exact h c hc
    rw [Nat.toDigitsCore] at hc
    split at hc
    · exact hds c hc
    · exact ih _ _ hds c hc

theorem isDigit_repr (w : Nat) : ∀ c ∈ (Nat.repr w).data, c.isDigit = true := by
  intro c hc
  exact isDigit_toDigitsCore _ _ [] (by simp) c (by simpa [Nat.repr, Nat.toDigits] using hc)

theorem isIdentChar_of_isDigit (c : Char) (h : c.isDigit = true) : isIdentChar c = true := by
  simp [isIdentChar, Char.isAlphanum, h]

theorem isIdentChar_of_isIdentStart (c : Char) (h : isIdentStart c = true) :
    isIdentChar c = true := by
  simp only [isIdentStart, isIdentChar, Char.isAlphanum, Bool.or_eq_true] at h ⊢
  tauto

/-- Every character of an identifier may continue an identifier. -/
theorem all_isIdentChar_of_isIdentifier (t : String) (h : isIdentifier t = true) :
    t.data.all isIdentChar = true := by
  unfold isIdentifier at h
  split at h
  · simp at h
  · next c cs heq =>
    simp only [Bool.and_eq_true] at h
    rw [heq, List.all_cons, h.2, isIdentChar_of_isIdentStart c h.1]
    rfl

/-- An identifier start followed by identifier characters is an identifier. -/
theorem isIdentifier_of_data (s : String) (c : Char) (cs : List Char) (hs : s.data = c :: cs)
    (hc : isIdentStart c = true) (hcs : cs.all isIdentChar = true) : isIdentifier s = true := by
  simp [isIdentifier, hs, hc, hcs]

theorem classify_identifier (s : String) (h : isIdentifier s = true) :
    classify s = some (.identifier s) := by
  simp [classify, h]

/-- The spelling `Elf<w>`. -/
theorem isIdentifier_Elf_width (w : Nat) : isIdentifier ("Elf" ++ Nat.repr w) = true := by
  apply isIdentifier_of_data _ 'E' ('l' :: 'f' :: (Nat.repr w).data) (by simp) (by decide)
  rw [List.all_cons, List.all_cons]
  have : (Nat.repr w).data.all isIdentChar = true :=
    List.all_eq_true.mpr fun c hc => isIdentChar_of_isDigit c (isDigit_repr w c hc)
  rw [this]
  decide

/-- The spelling `_<t>`. -/
theorem isIdentifier_underscore (t : String) (h : isIdentifier t = true) :
    isIdentifier ("_" ++ t) = true :=
  isIdentifier_of_data _ '_' t.data (by simp) (by decide) (all_isIdentChar_of_isIdentifier t h)

/-- The spelling `Elf<w>_<t>`. -/
theorem isIdentifier_Elf_width_name (w : Nat) (t : String) (h : isIdentifier t = true) :
    isIdentifier (("Elf" ++ Nat.repr w) ++ ("_" ++ t)) = true := by
  apply isIdentifier_of_data _ 'E' ('l' :: 'f' :: ((Nat.repr w).data ++ '_' :: t.data))
    (by simp) (by decide)
  rw [List.all_cons, List.all_cons, List.all_append, List.all_cons]
  have h1 : (Nat.repr w).data.all isIdentChar = true :=
    List.all_eq_true.mpr fun c hc => isIdentChar_of_isDigit c (isDigit_repr w c hc)
  rw [h1, all_isIdentChar_of_isIdentifier t h]
  decide

/-- No spelling `Elf...` is the name of an object-like macro of the header. -/
theorem Elf_not_macro (s : String) : ("Elf" ++ s) ∉ objectMacroNames := by
  intro h
  simp only [objectMacroNames, objectMacros, List.map_cons, List.map_nil, List.mem_cons,
    List.mem_singleton, List.not_mem_nil, or_false] at h
  rcases h with h | h | h | h | h | h <;>
    · have := congrArg String.data h
      simp at this

/-! ## Lemmas on macro replacement -/

theorem lookup_objectMacros_none (w : Nat) (n : String) (h : n ∉ objectMacroNames) :
    (objectMacros w).lookup n = none := by
  simp only [objectMacroNames, objectMacros, List.map_cons, List.map_nil, List.mem_cons,
    List.mem_singleton, List.not_mem_nil, or_false, not_or] at h
  obtain ⟨h1, h2, h3, h4, h5, h6⟩ := h
  simp [objectMacros, List.lookup, beq_eq_false_iff_ne.mpr h1, beq_eq_false_iff_ne.mpr h2,
    beq_eq_false_iff_ne.mpr h3, beq_eq_false_iff_ne.mpr h4, beq_eq_false_iff_ne.mpr h5,
    beq_eq_false_iff_ne.mpr h6]

/-- An identifier that names no object-like macro is left as it is. -/
theorem fullyExpand_identifier (w : Nat) (n : String) (h : n ∉ objectMacroNames) :
    fullyExpand w [.identifier n] = some [.identifier n] := by
  simp [fullyExpand, expand, lookup_objectMacros_none w n h]

/-- The width macro is replaced by the numeric value of `__WORDSIZE`. -/
theorem fullyExpand_ELF_NATIVE_CLASS (w : Nat) :
    fullyExpand w [.identifier "__ELF_NATIVE_CLASS"] = some [.ppNumber (Nat.repr w)] := by
  simp [fullyExpand, expand, objectMacros, List.lookup, __ELF_NATIVE_CLASS, __WORDSIZE]

theorem pasteSeq_singleton (a b : PPToken) :
    pasteSeq [a] [b] = (paste a b).map fun t => [t] := by
  simp [pasteSeq]

/-- The three-level expansion of `ElfW (t)` for an identifier `t` that names no
object-like macro. -/
theorem ElfW_identifier (w : Nat) (t : String) (hid : isIdentifier t = true)
    (hm : t ∉ objectMacroNames) :
    ElfW w [.identifier t] = some [.identifier ("Elf" ++ Nat.repr w ++ "_" ++ t)] := by
  have e1 : paste (.identifier "_") (.identifier t) = some (.identifier ("_" ++ t)) :=
    classify_identifier _ (isIdentifier_underscore t hid)
  have e2 : paste (.identifier "Elf") (.ppNumber (Nat.repr w))
      = some (.identifier ("Elf" ++ Nat.repr w)) :=
    classify_identifier _ (isIdentifier_Elf_width w)
  have e3 : paste (.identifier ("Elf" ++ Nat.repr w)) (.identifier ("_" ++ t))
      = some (.identifier (("Elf" ++ Nat.repr w) ++ ("_" ++ t))) :=
    classify_identifier _ (isIdentifier_Elf_width_name w t hid)
  have e4 : fullyExpand w [.identifier (("Elf" ++ Nat.repr w) ++ ("_" ++ t))]
      = some [.identifier (("Elf" ++ Nat.repr w) ++ ("_" ++ t))] :=
    fullyExpand_identifier w _ (by rw [String.append_assoc]; exact Elf_not_macro _)
  have e5 : fullyExpand w [.identifier "Elf"] = some [.identifier "Elf"] :=
    fullyExpand_identifier w _ (by decide)
  simp only [ElfW, _ElfW, _ElfW_1, fullyExpand_identifier w t hm, e5,
    fullyExpand_ELF_NATIVE_CLASS, pasteSeq_singleton, e1, e2, e3, e4, Option.map_some',
    Option.some_bind]
  rw [String.append_assoc ("Elf" ++ Nat.repr w) "_" t]

theorem snd_mem_of_lookup {β : Type} (n : String) (b : β) :
    ∀ l : List (String × β), l.lookup n = some b → b ∈ l.map Prod.snd := by
  intro l
  induction l with
  | nil => intro h; simp [List.lookup] at h
  | cons p ps ih =>
    intro h
    obtain ⟨k, v⟩ := p
    simp only [List.lookup] at h
    split at h
    · simp only [Option.some.injEq] at h
      simp [h]
    · simp [ih h]

/-- The replacement of each object-like macro is expanded within three
steps. -/
theorem expand_body_isSome (w : Nat) (body : List PPToken)
    (hb : body ∈ (objectMacros w).map Prod.snd) (fuel : Nat) (disabled : List String) :
    (expand (objectMacros w) (fuel + 3) disabled body).isSome = true := by
  simp only [objectMacros, List.map_cons, List.map_nil, List.mem_cons, List.mem_singleton,
    List.not_mem_nil, or_false] at hb
  rcases hb with rfl | rfl | rfl | rfl | rfl | rfl
  · simp [__INJECT_H, expand]
  · by_cases hd : "__WORDSIZE" ∈ disabled
    · simp [__ELF_NATIVE_CLASS, expand, hd]
    · simp [__ELF_NATIVE_CLASS, expand, hd, objectMacros, List.lookup, __WORDSIZE]
  · simp [SHMEM_NAME, expand]
  · simp [SHMEM_MODE, expand]
  · simp [SHMEM_SIZE, expand]
  · simp [__WORDSIZE, expand]

/-- Macro replacement does not run out of steps. -/
theorem expand_isSome (w : Nat) (toks : List PPToken) :
    ∀ (fuel : Nat) (disabled : List String), toks.length + 4 ≤ fuel →
      (expand (objectMacros w) fuel disabled toks).isSome = true := by
  induction toks with
  | nil =>
    intro fuel disabled h
    obtain ⟨k, rfl⟩ : ∃ k, fuel = k + 1 := ⟨fuel - 1, by simp at h; omega⟩
    simp [expand]
  | cons tok rest ih =>
    intro fuel disabled h
    obtain ⟨k, rfl⟩ : ∃ k, fuel = k + 4 := ⟨fuel - 4, by simp at h; omega⟩
    have hrest : (expand (objectMacros w) (k + 3) disabled rest).isSome = true :=
      ih (k + 3) disabled (by simp at h; omega)
    obtain ⟨r, hr⟩ := Option.isSome_iff_exists.mp hrest
    cases tok with
    | identifier n =>
      by_cases hd : n ∈ disabled
      · simp [expand, hd, hr]
      · cases hl : (objectMacros w).lookup n with
        | none => simp [expand, hd, hl, hr]
        | some body =>
          have hb := expand_body_isSome w body (snd_mem_of_lookup n body _ hl) k (n :: disabled)
          obtain ⟨b, hb⟩ := Option.isSome_iff_exists.mp hb
          simp [expand, hd, hl, hr, hb]
    | ppNumber s => simp [expand, hr]
    | stringLiteral s => simp [expand, hr]

/-- Complete macro replacement yields a result for every token sequence. -/
theorem fullyExpand_isSome (w : Nat) (toks : List PPToken) :
    (fullyExpand w toks).isSome = true :=
  expand_isSome w toks _ [] (le_refl _)

theorem repr_32 : Nat.repr 32 = "32" := by decide

theorem repr_64 : Nat.repr 64 = "64" := by decide

theorem takeWhile_append_stop (p : Char → Bool) (l r : List Char) (c : Char)
    (hl : ∀ x ∈ l, p x = true) (hc : p c = false) : (l ++ c :: r).takeWhile p = l := by
  induction l with
  | nil => simp [List.takeWhile, hc]
  | cons x xs ih =>
    have hx : p x = true := hl x (List.mem_cons_self x xs)
    have hxs : ∀ y ∈ xs, p y = true := fun y hy => hl y (List.mem_cons_of_mem x hy)
    simp [List.takeWhile, hx, ih hxs]

/-- The width component of `Elf<w>_<t>` is the decimal spelling of `w`. -/
theorem widthComponent_Elf (w : Nat) (t : String) :
    widthComponent ("Elf" ++ Nat.repr w ++ "_" ++ t) = some (Nat.repr w).data := by
  have hd : ("Elf" ++ Nat.repr w ++ "_" ++ t).data
      = 'E' :: 'l' :: 'f' :: ((Nat.repr w).data ++ '_' :: t.data) := by simp
  simp only [widthComponent, hd]
  rw [takeWhile_append_stop Char.isDigit _ _ '_' (isDigit_repr w) (by decide)]

/-- The spelling `Elf<w>_<t>` determines `t`. -/
theorem Elf_width_name_cancel (ws t1 t2 : String)
    (h : "Elf" ++ ws ++ "_" ++ t1 = "Elf" ++ ws ++ "_" ++ t2) : t1 = t2 := by
  have := congrArg String.data h
  simp only [String.data_append, List.append_cancel_left_eq] at this
  exact String.ext this

/-! ## The native-width type resolver -/

/-- C1: for a word size `w` of 32 or 64 and an identifier `t` that names a
logical ELF type (an identifier that is not itself a macro), `ElfW (t)`
resolves to the single identifier `Elf<w>_<t>`: the width macro
`__ELF_NATIVE_CLASS` is replaced by the value of `__WORDSIZE` before the
pasting, so the result is never `Elf__ELF_NATIVE_CLASS_<t>` or
`Elf__WORDSIZE_<t>`, and `ElfW (Sym)` is `Elf64_Sym` at width 64 and
`Elf32_Sym` at width 32. -/
theorem ElfW_resolves (w : Nat) (hw : w = 32 ∨ w = 64) (t : String)
    (hid : isIdentifier t = true) (hm : t ∉ objectMacroNames) :
    ElfW w [.identifier t] = some [.identifier ("Elf" ++ Nat.repr w ++ "_" ++ t)]
    ∧ fullyExpand w [.identifier "__ELF_NATIVE_CLASS"] = some [.ppNumber (Nat.repr w)]
    ∧ ElfW w [.identifier t] ≠ some [.identifier ("Elf__ELF_NATIVE_CLASS_" ++ t)]
    ∧ ElfW w [.identifier t] ≠ some [.identifier ("Elf__WORDSIZE_" ++ t)]
    ∧ ElfW 64 [.identifier "Sym"] = some [.identifier "Elf64_Sym"]
    ∧ ElfW 32 [.identifier "Sym"] = some [.identifier "Elf32_Sym"] := by
  refine ⟨ElfW_identifier w t hid hm, fullyExpand_ELF_NATIVE_CLASS w, ?_, ?_, by decide,
    by decide⟩
  · rw [ElfW_identifier w t hid hm]
    intro h
    simp only [Option.some.injEq, List.cons.injEq, PPToken.identifier.injEq, and_true] at h
    have := congrArg String.data h
    rcases hw with rfl | rfl
    · simp [repr_32] at this
    · simp [repr_64] at this
  · rw [ElfW_identifier w t hid hm]
    intro h
    simp only [Option.some.injEq, List.cons.injEq, PPToken.identifier.injEq, and_true] at h
    have := congrArg String.data h
    rcases hw with rfl | rfl
    · simp [repr_32] at this
    · simp [repr_64] at this

theorem ElfW_resolves_witness :
    (64 = 32 ∨ 64 = 64) ∧ isIdentifier "Ehdr" = true ∧ "Ehdr" ∉ objectMacroNames
    ∧ ElfW 64 [.identifier "Ehdr"] = some [.identifier ("Elf" ++ Nat.repr 64 ++ "_" ++ "Ehdr")] :=
  ⟨by decide, by decide, by decide,
    (ElfW_resolves 64 (by decide) "Ehdr" (by decide) (by decide)).1⟩

/-- C2: on the word sizes 32 and 64 and on identifiers that name logical ELF
types, `ElfW` is injective: the identifiers resolved for `(w1, t1)` and
`(w2, t2)` are equal exactly when `w1 = w2` and `t1 = t2`. -/
theorem ElfW_injective (w1 w2 : Nat) (h1 : w1 = 32 ∨ w1 = 64) (h2 : w2 = 32 ∨ w2 = 64)
    (t1 t2 : String) (hid1 : isIdentifier t1 = true) (hm1 : t1 ∉ objectMacroNames)
    (hid2 : isIdentifier t2 = true) (hm2 : t2 ∉ objectMacroNames) :
    ElfW w1 [.identifier t1] = ElfW w2 [.identifier t2] ↔ w1 = w2 ∧ t1 = t2 := by
  constructor
  · intro h
    rw [ElfW_identifier w1 t1 hid1 hm1, ElfW_identifier w2 t2 hid2 hm2] at h
    simp only [Option.some.injEq, List.cons.injEq, PPToken.identifier.injEq, and_true] at h
    rcases h1 with rfl | rfl <;> rcases h2 with rfl | rfl
    · exact ⟨rfl, Elf_width_name_cancel _ _ _ h⟩
    · have := congrArg String.data h
      simp [repr_32, repr_64] at this
    · have := congrArg String.data h
      simp [repr_32, repr_64] at this
    · exact ⟨rfl, Elf_width_name_cancel _ _ _ h⟩
  · rintro ⟨rfl, rfl⟩
    rfl

theorem ElfW_injective_witness :
    (32 = 32 ∨ 32 = 64) ∧ (64 = 32 ∨ 64 = 64)
    ∧ isIdentifier "Sym" = true ∧ "Sym" ∉ objectMacroNames
    ∧ isIdentifier "Shdr" = true ∧ "Shdr" ∉ objectMacroNames
    ∧ (ElfW 32 [.identifier "Sym"] = ElfW 64 [.identifier "Shdr"] ↔ 32 = 64 ∧ "Sym" = "Shdr") :=
  ⟨by decide, by decide, by decide, by decide, by decide, by decide,
    ElfW_injective 32 64 (by decide) (by decide) "Sym" "Shdr" (by decide) (by decide)
      (by decide) (by decide)⟩

/-- C5: under one definition of `__WORDSIZE` every resolution uses the same
width: for every word size `w` and any two logical names `t1` and `t2` the
resolved identifiers are `Elf<w>_<t1>` and `Elf<w>_<t2>`, both with the width
component `w`, and it is never the case that one is an `Elf32_` name and the
other an `Elf64_` name. -/
theorem ElfW_single_width (w : Nat) (t1 t2 : String)
    (hid1 : isIdentifier t1 = true) (hm1 : t1 ∉ objectMacroNames)
    (hid2 : isIdentifier t2 = true) (hm2 : t2 ∉ objectMacroNames) :
    ∃ n1 n2 : String,
      ElfW w [.identifier t1] = some [.identifier n1]
      ∧ ElfW w [.identifier t2] = some [.identifier n2]
      ∧ widthComponent n1 = some (Nat.repr w).data
      ∧ widthComponent n2 = some (Nat.repr w).data
      ∧ ¬ ∃ a b : String, n1 = "Elf32_" ++ a ∧ n2 = "Elf64_" ++ b := by
  refine ⟨_, _, ElfW_identifier w t1 hid1 hm1, ElfW_identifier w t2 hid2 hm2,
    widthComponent_Elf w t1, widthComponent_Elf w t2, ?_⟩
  rintro ⟨a, b, ha, hb⟩
  have wa := widthComponent_Elf w t1
  have wb := widthComponent_Elf w t2
  rw [ha] at wa
  rw [hb] at wb
  have ea : widthComponent ("Elf32_" ++ a) = some ['3', '2'] := by
    simp only [widthComponent, String.data_append]
    rfl
  have eb : widthComponent ("Elf64_" ++ b) = some ['6', '4'] := by
    simp only [widthComponent, String.data_append]
    rfl
  rw [ea] at wa
  rw [eb] at wb
  rw [← wa] at wb
  simp at wb

theorem ElfW_single_width_witness :
    isIdentifier "Sym" = true ∧ "Sym" ∉ objectMacroNames
    ∧ isIdentifier "Phdr" = true ∧ "Phdr" ∉ objectMacroNames
    ∧ ∃ n1 n2 : String,
      ElfW 64 [.identifier "Sym"] = some [.identifier n1]
      ∧ ElfW 64 [.identifier "Phdr"] = some [.identifier n2]
      ∧ widthComponent n1 = some (Nat.repr 64).data
      ∧ widthComponent n2 = some (Nat.repr 64).data
      ∧ ¬ ∃ a b : String, n1 = "Elf32_" ++ a ∧ n2 = "Elf64_" ++ b :=
  ⟨by decide, by decide, by decide, by decide,
    ElfW_single_width 64 "Sym" "Phdr" (by decide) (by decide) (by decide) (by decide)⟩

/-- C6: the resolution has no error path on logical names: for every width
value `w`, also outside 32 and 64, and every identifier `t` that names a
logical ELF type, `ElfW (t)` yields the identifier `Elf<w>_<t>`. -/
theorem ElfW_total (w : Nat) (t : String)
    (hid : isIdentifier t = true) (hm : t ∉ objectMacroNames) :
    ElfW w [.identifier t] = some [.identifier ("Elf" ++ Nat.repr w ++ "_" ++ t)]
    ∧ isIdentifier ("Elf" ++ Nat.repr w ++ "_" ++ t) = true := by
  refine ⟨ElfW_identifier w t hid hm, ?_⟩
  rw [String.append_assoc ("Elf" ++ Nat.repr w) "_" t]
  exact isIdentifier_Elf_width_name w t hid

theorem ElfW_total_witness :
    isIdentifier "Sym" = true ∧ "Sym" ∉ objectMacroNames
    ∧ ElfW 128 [.identifier "Sym"] = some [.identifier ("Elf" ++ Nat.repr 128 ++ "_" ++ "Sym")]
    ∧ isIdentifier ("Elf" ++ Nat.repr 128 ++ "_" ++ "Sym") = true :=
  ⟨by decide, by decide, ElfW_total 128 "Sym" (by decide) (by decide)⟩

/-- An argument that names an object-like macro is replaced before the
pasting: `ElfW (SHMEM_MODE)` is `Elf64_277`. -/
theorem ElfW_macro_argument :
    ElfW 64 [.identifier "SHMEM_MODE"] = some [.identifier "Elf64_277"] := by decide

/-- An argument whose replacement is a string literal cannot be pasted:
`ElfW (SHMEM_NAME)` is no token. -/
theorem ElfW_string_argument : ElfW 64 [.identifier "SHMEM_NAME"] = none := by decide

/-- Pasting the width macro without the intermediate level `_ElfW` keeps its
name: `_ElfW_1 (Elf, __ELF_NATIVE_CLASS, _Sym)` is `Elf__ELF_NATIVE_CLASS_Sym`. -/
theorem ElfW_1_pastes_unexpanded :
    _ElfW_1 64 [.identifier "Elf"] [.identifier "__ELF_NATIVE_CLASS"] [.identifier "_Sym"]
      = some [.identifier "Elf__ELF_NATIVE_CLASS_Sym"] := by decide

/-! ## The shared memory parameters -/

/-- C3: the fixed parameters of the handoff channel are the name
`SHMEM_NAME`, the string `/seccompnurse`, and the size `SHMEM_SIZE`, the
hexadecimal constant `0x10`, which is 16 bytes. -/
theorem shmem_parameters :
    stringValue SHMEM_NAME = some "/seccompnurse"
    ∧ SHMEM_SIZE = [.ppNumber "0x10"]
    ∧ integerConstant "0x10" = some 16
    ∧ constantValue SHMEM_SIZE = some 16
    ∧ shmemSize = 16
    ∧ (∀ w, (fullyExpand w [.identifier "SHMEM_NAME"]).bind stringValue = some "/seccompnurse")
    ∧ (∀ w, (fullyExpand w [.identifier "SHMEM_SIZE"]).bind constantValue = some 16) := by
  refine ⟨by decide, rfl, by decide, by decide, by decide, ?_, ?_⟩
  · intro w
    simp [fullyExpand, expand, objectMacros, List.lookup, SHMEM_NAME, stringValue]
  · intro w
    have h : fullyExpand w [.identifier "SHMEM_SIZE"] = some SHMEM_SIZE := by
      simp [fullyExpand, expand, objectMacros, List.lookup, SHMEM_SIZE]
    rw [h]
    decide

/-- C10: the mode `SHMEM_MODE` is the decimal constant 277, which is octal
0425: owner read only, group write only, other read and execute.  It is not
the octal constant 0277 (which is 191), it is none of the read and write masks
0600, 0660 and 0666, its owner write bit 0200 is clear, and it lies within the
nine permission bits. -/
theorem shmem_mode_bits :
    SHMEM_MODE = [.ppNumber "277"]
    ∧ constantValue SHMEM_MODE = some 277
    ∧ shmemMode = 277
    ∧ integerConstant "0425" = some shmemMode
    ∧ shmemMode = 0o425
    ∧ permsOf shmemMode = [.ownerRead, .groupWrite, .otherRead, .otherExec]
    ∧ integerConstant "0277" = some 191
    ∧ shmemMode ≠ 191
    ∧ shmemMode ≠ 0o277
    ∧ shmemMode ≠ 0o600 ∧ shmemMode ≠ 0o660 ∧ shmemMode ≠ 0o666
    ∧ hasPerm shmemMode .ownerWrite = false
    ∧ shmemMode &&& 0o200 = 0
    ∧ shmemMode < 512 := by
  refine ⟨rfl, ?_, ?_, ?_, ?_, ?_, ?_, ?_, ?_, ?_, ?_, ?_, ?_, ?_, ?_⟩ <;> decide

/-! ## The entry-point slot -/

/-- C7: the type `main_t` of `realmain` is a pointer to a function that takes
exactly three arguments, an `int`, a `char **` and a `char **` in this order,
and returns `int`. -/
theorem realmain_signature :
    resolveType realmain.type
      = some (.pointer (.function .int
          [.int, .pointer (.pointer .char), .pointer (.pointer .char)]))
    ∧ ∀ (r : CType) (ps : List CType),
        resolveType realmain.type = some (.pointer (.function r ps)) →
        r = .int ∧ ps.length = 3
        ∧ ps = [.int, .pointer (.pointer .char), .pointer (.pointer .char)] := by
  have h : resolveType realmain.type = some main_t := by
    simp [resolveType, realmain, typedefs, List.lookup]
  refine ⟨h, ?_⟩
  intro r ps hr
  rw [h] at hr
  simp only [main_t, Option.some.injEq, CType.pointer.injEq, CType.function.injEq] at hr
  obtain ⟨rfl, rfl⟩ := hr
  exact ⟨rfl, rfl, rfl⟩

/-- C8: `realmain` is declared without an initializer, so at program startup
it holds the null pointer and no entry-point address; this is the slot of the
`Uninjected` state. -/
theorem realmain_initially_null :
    realmain.initializer = none
    ∧ initialValue realmain = some Value.null
    ∧ Target.initial.slot = Value.null
    ∧ Target.initial.slot = .pointer 0
    ∧ Target.initial.state = .Uninjected := by
  refine ⟨rfl, ?_, ?_, ?_, rfl⟩ <;> decide

/-- A target in the `Uninjected` state is captured: the address is saved into
the slot. -/
theorem capture_uninjected (entry : Nat) :
    capture entry Target.initial = (⟨.Captured, .pointer entry⟩, .ok ()) := rfl

/-- C9: capturing into a slot that is already in the `Captured` or the
`Redirected` state fails with `AlreadyInjected` and leaves the target, and
with it the value of the slot, unchanged. -/
theorem capture_already_injected (entry : Nat) (t : Target)
    (h : t.state = .Captured ∨ t.state = .Redirected) :
    (capture entry t).2 = .error .AlreadyInjected
    ∧ (capture entry t).1 = t
    ∧ (capture entry t).1.slot = t.slot := by
  rcases h with h | h <;> simp [capture, h]

theorem capture_already_injected_witness :
    ((capture 4096 Target.initial).1.state = .Captured
      ∨ (capture 4096 Target.initial).1.state = .Redirected)
    ∧ (capture 8192 (capture 4096 Target.initial).1).2 = .error .AlreadyInjected
    ∧ (capture 8192 (capture 4096 Target.initial).1).1 = (capture 4096 Target.initial).1
    ∧ (capture 8192 (capture 4096 Target.initial).1).1.slot = .pointer 4096 :=
  ⟨by decide, capture_already_injected 8192 (capture 4096 Target.initial).1 (by decide)⟩

/-! ## The payload of the handoff channel -/

/-- C4: a pointer-sized payload fits in the channel: for a word size `w` of 32
or 64 the pointer size `w / 8` is at most `SHMEM_SIZE`, so `write_value` on a
region of `SHMEM_SIZE` bytes succeeds and never fails with `ChannelTooSmall`;
at width 64 the payload takes 8 bytes and 8 bytes of the region remain. -/
theorem payload_fits (w : Nat) (hw : w = 32 ∨ w = 64) :
    pointerSize w = w / 8
    ∧ pointerSize w ≤ shmemSize
    ∧ (∀ (ch : HandoffChannel) (v : Nat), ch.region.length = shmemSize →
        write_value w ch v ≠ .error .ChannelTooSmall
        ∧ write_value w ch v
            = .ok ⟨bytesOf (pointerSize w) v ++ ch.region.drop (pointerSize w)⟩)
    ∧ pointerSize 64 = 8
    ∧ shmemSize - pointerSize 64 = 8
    ∧ (∀ (ch : HandoffChannel), ch.region.length = shmemSize →
        (ch.region.drop (pointerSize 64)).length = 8) := by
  have hs : shmemSize = 16 := by decide
  have hp : pointerSize w = w / 8 := by
    simp [pointerSize, sizeofType, resolveType, realmain, typedefs, List.lookup, main_t]
  have hle : pointerSize w ≤ shmemSize := by
    rw [hp, hs]
    rcases hw with rfl | rfl <;> decide
  refine ⟨hp, hle, ?_, by decide, by decide, ?_⟩
  · intro ch v hlen
    have hfit : pointerSize w ≤ ch.region.length := by rw [hlen]; exact hle
    simp [write_value, hfit]
  · intro ch hlen
    have h8 : pointerSize 64 = 8 := by decide
    rw [List.length_drop, hlen, hs, h8]

theorem payload_fits_witness :
    (64 = 32 ∨ 64 = 64)
    ∧ pointerSize 64 ≤ shmemSize
    ∧ write_value 64 HandoffChannel.create 0x1122334455667788
        = .ok ⟨[0x88, 0x77, 0x66, 0x55, 0x44, 0x33, 0x22, 0x11, 0, 0, 0, 0, 0, 0, 0, 0]⟩ :=
  ⟨by decide, (payload_fits 64 (by decide)).2.1,
    ((payload_fits 64 (by decide)).2.2.1 HandoffChannel.create 0x1122334455667788
      (by decide)).2⟩

end Inject
